import Mathlib

/-!
Verification of the simulation-tick scheduling core of the valar.github.io
repository, together with the simulation step functions (onTick) of the
visualization components that use it.

The useSimulation hook itself is not among the provided source files; only
its callers, the content-creator instructions describing it, and the written
specification are.  The scheduler data model and its operations are therefore
modelled from the specification (sections 3-5 of spec.md); each such
definition is marked.  The onTick step functions of the visualization
components (DeepSeekMHCSimulation, BrainMimeticSimulation,
DigitalRedQueenSimulation) are translated directly from the TypeScript
source.  JavaScript numbers are modelled as rationals, and each call to
Math.random is made an explicit parameter of the step function.
-/

/-- The capped push used both by the scheduler's bounded log buffer and,
with capacity 50 resp. 5, by the history fields of DeepSeekMHCSimulation
(wildHistory/mhcHistory, source: part_005 lines 288-289, the JS idiom
[...arr, x].slice(-cap)) and BrainMimeticSimulation (staticMemory and
plasticMemory, slice(-5)).  Appending e to l and keeping the last cap
elements: oldest entries are evicted first. -/
def pushCapped (cap : Nat) (l : List α) (e : α) : List α :=
  (l ++ [e]).drop (l.length + 1 - cap)

namespace Scheduler

/-- Modelled from the spec: SimulationConfig (section 3), immutable for the
lifetime of one scheduler instance.  onTick receives the previous state and
the tick index before increment; onLog is optional. -/
structure SimulationConfig (S L : Type) where
  initialState : S
  onTick : S → Nat → S
  tickRate : Int
  onLog : Option (S → L)

/-- Modelled from the spec: the fixed maximum capacity of the logs buffer
(section 3: capped at a fixed maximum, oldest evicted first).  The in-source
history buffers of DeepSeekMHCSimulation use the same capacity 50. -/
def maxLogs : Nat := 50

/-- Modelled from the spec: SimulationHandle (section 3) together with the
scheduler-local timer handle (section 5): timerArmed records whether a timer
callback is pending.  state, tickIndex, logs and isRunning are exactly the
fields the handle exposes. -/
structure SimulationHandle (S L : Type) where
  state : S
  tickIndex : Nat
  logs : List L
  isRunning : Bool
  timerArmed : Bool

/-- Modelled from the spec: the freshly constructed handle (section 3,
lifecycle): initial state, tick index 0, empty logs, stopped, no timer. -/
def initHandle (cfg : SimulationConfig S L) : SimulationHandle S L :=
  { state := cfg.initialState, tickIndex := 0, logs := [],
    isRunning := false, timerArmed := false }

/-- Modelled from the spec: start() (section 4.1).  If already running,
no-op; otherwise transitions to running and arms the repeating timer. -/
def start (h : SimulationHandle S L) : SimulationHandle S L :=
  if h.isRunning then h
  else { h with isRunning := true, timerArmed := true }

/-- Modelled from the spec: stop() (section 4.1).  If not running, no-op;
otherwise cancels the pending timer.  Does not reset state or tickIndex. -/
def stop (h : SimulationHandle S L) : SimulationHandle S L :=
  if h.isRunning then { h with isRunning := false, timerArmed := false }
  else h

/-- Modelled from the spec: reset() (section 4.1).  Cancels any pending
timer (implicitly stopping), restores state to a fresh copy of initialState,
tickIndex to 0, clears logs; status is left stopped. -/
def reset (cfg : SimulationConfig S L) (_h : SimulationHandle S L) :
    SimulationHandle S L :=
  initHandle cfg

/-- Modelled from the spec: teardown on component unmount (section 4.1):
cancels any pending timer unconditionally, regardless of running state. -/
def teardown (h : SimulationHandle S L) : SimulationHandle S L :=
  { h with timerArmed := false }

/-- Modelled from the spec: appending one log entry (section 4.1, start():
if onLog is supplied it is invoked with the new state after each tick and
its result appended to logs with capacity eviction). -/
def applyLog (cfg : SimulationConfig S L) (logs : List L) (s : S) : List L :=
  match cfg.onLog with
  | none => logs
  | some f => pushCapped maxLogs logs (f s)

/-- Modelled from the spec: the elapse of one tick interval (sections 4.1
and 5).  If a timer callback is pending it fires; the callback re-checks the
running flag before applying state (section 5), so a queued callback after a
stop request applies no tick and does not re-arm.  An applied tick replaces
state by onTick state tickIndex, increments tickIndex after the application,
appends the optional log entry, and re-arms the fixed-delay timer. -/
def elapse (cfg : SimulationConfig S L) (h : SimulationHandle S L) :
    SimulationHandle S L :=
  if h.timerArmed then
    if h.isRunning then
      let s := cfg.onTick h.state h.tickIndex
      { state := s, tickIndex := h.tickIndex + 1,
        logs := applyLog cfg h.logs s, isRunning := true, timerArmed := true }
    else { h with timerArmed := false }
  else h

/-- Iterated elapse of n tick intervals. -/
def elapseN (cfg : SimulationConfig S L) (n : Nat) (h : SimulationHandle S L) :
    SimulationHandle S L :=
  (elapse cfg)^[n] h

/-- The events a scheduler instance can undergo after construction: the three
exposed operations, teardown, and the elapse of one tick interval. -/
inductive Op where
  | start
  | stop
  | reset
  | teardown
  | elapse

/-- Apply one event to a handle. -/
def applyOp (cfg : SimulationConfig S L) (h : SimulationHandle S L) :
    Op → SimulationHandle S L
  | .start => start h
  | .stop => stop h
  | .reset => reset cfg h
  | .teardown => teardown h
  | .elapse => elapse cfg h

/-- The handle reached from a fresh construction by a sequence of events;
every reachable scheduler state is of this form. -/
def run (cfg : SimulationConfig S L) (ops : List Op) : SimulationHandle S L :=
  ops.foldl (applyOp cfg) (initHandle cfg)

/-- The trajectory of the first n ticks from a handle: the (state, tickIndex)
snapshot after each of the first n elapsed intervals. -/
def traj (cfg : SimulationConfig S L) (h : SimulationHandle S L) (n : Nat) :
    List (S × Nat) :=
  (List.range n).map fun i =>
    ((elapseN cfg (i + 1) h).state, (elapseN cfg (i + 1) h).tickIndex)

/-- Modelled from the spec: the error taxonomy of configuration validation
(section 7): tickRate non-positive, or onTick missing. -/
inductive ConfigError where
  | nonPositiveTickRate
  | missingOnTick

/-- Modelled from the spec: a raw, not yet validated configuration as a
caller might supply it, in which onTick may be missing (section 7). -/
structure RawConfig (S L : Type) where
  initialState : S
  onTick : Option (S → Nat → S)
  tickRate : Int
  onLog : Option (S → L)

/-- Modelled from the spec: fail-fast construction of a scheduler instance
(section 7): a non-positive tickRate or a missing onTick is rejected at
construction and no scheduler instance is produced; otherwise the validated
configuration and the freshly constructed handle are returned. -/
def construct (cfg : RawConfig S L) :
    Except ConfigError (SimulationConfig S L × SimulationHandle S L) :=
  if cfg.tickRate ≤ 0 then .error .nonPositiveTickRate
  else
    match cfg.onTick with
    | none => .error .missingOnTick
    | some f =>
        let vcfg : SimulationConfig S L :=
          { initialState := cfg.initialState, onTick := f,
            tickRate := cfg.tickRate, onLog := cfg.onLog }
        .ok (vcfg, initHandle vcfg)

/-- Whether construction produced a scheduler instance. -/
def constructOk (r : Except ConfigError (SimulationConfig S L × SimulationHandle S L)) : Bool :=
  match r with
  | .ok _ => true
  | .error _ => false

end Scheduler

namespace DRQ

/-! Translation of the Core War engine of DigitalRedQueenSimulation
(ControlTheoreticSimulationHelpers.ts).  JavaScript numbers held in
instruction fields and program counters are modelled as Int, with the
JS remainder operator modelled by Int.tmod (truncated remainder, the JS
semantics).  Out-of-range array reads, which cannot occur for the indices
produced here, are modelled by a default DAT cell. -/

def CORE_SIZE : Int := 128

def MAX_CYCLES : Nat := 800

def MAX_PROCESSES_PER_PLAYER : Nat := 32

inductive InstructionType where
  | DAT
  | MOV
  | ADD
  | JMP
  | SPL

/-- An instruction cell of the core (helpers line 42-47). -/
structure Instruction where
  op : InstructionType
  a : Int
  b : Int
  owner : Nat

/-- A running process (helpers line 49-53). -/
structure Process where
  pc : Int
  player : Nat
  id : String

/-- The simulation state (helpers line 55-60); winner none models null. -/
structure CoreState where
  memory : List Instruction
  processes : List Process
  cycles : Nat
  winner : Option Nat

/-- Number of processes owned by player pl, as computed by the
activeProcs.filter(p onTick line 143) pattern. -/
def countPlayer (pl : Nat) (ps : List Process) : Nat :=
  (ps.filter fun p => p.player == pl).length

/-- Relative addressing (helpers line 151): (currIdx + rel + CORE_SIZE) %
CORE_SIZE with the JS remainder. -/
def getAddr (currIdx rel : Int) : Int :=
  (currIdx + rel + CORE_SIZE).tmod CORE_SIZE

/-- Read of nextMem at an index. -/
def memGet (mem : List Instruction) (i : Int) : Instruction :=
  mem.getD i.toNat { op := .DAT, a := 0, b := 0, owner := 0 }

/-- Write of nextMem at an index. -/
def memSet (mem : List Instruction) (i : Int) (v : Instruction) :
    List Instruction :=
  mem.set i.toNat v

/-- One iteration of the process execution loop (helpers lines 142-181),
executed over the accumulator (nextMem, nextGenProcs).  playerCount counts
the forking player's processes in the full activeProcs list plus those
already produced into nextGenProcs; a SPL forks only when it is below
MAX_PROCESSES_PER_PLAYER.  A DAT crashes the process (no survivor); every
other instruction appends the surviving process with its new pc. -/
def execProc (active : List Process) (cycles : Nat)
    (acc : List Instruction × List Process) (proc : Process) :
    List Instruction × List Process :=
  let nextMem := acc.1
  let nextGen := acc.2
  let playerCount :=
    countPlayer proc.player active + countPlayer proc.player nextGen
  let currIdx := (proc.pc + CORE_SIZE).tmod CORE_SIZE
  let instr := memGet nextMem currIdx
  match instr.op with
  | .DAT => (nextMem, nextGen)
  | .MOV =>
      (memSet nextMem (getAddr currIdx instr.b)
        { memGet nextMem (getAddr currIdx instr.a) with owner := proc.player },
       nextGen ++ [{ proc with pc := currIdx + 1 }])
  | .ADD =>
      let target := memGet nextMem (getAddr currIdx instr.b)
      (memSet nextMem (getAddr currIdx instr.b)
        { target with a := target.a + instr.a, owner := proc.player },
       nextGen ++ [{ proc with pc := currIdx + 1 }])
  | .JMP =>
      (nextMem, nextGen ++ [{ proc with pc := getAddr currIdx instr.a }])
  | .SPL =>
      let spawned :=
        if playerCount < MAX_PROCESSES_PER_PLAYER then
          nextGen ++ [{ pc := getAddr currIdx instr.a, player := proc.player,
                        id := proc.id ++ "_spl_" ++ toString cycles }]
        else nextGen
      (nextMem, spawned ++ [{ proc with pc := currIdx + 1 }])

/-- The onTick of DigitalRedQueenSimulation (helpers lines 131-197).  The
terminal branch (winner decided, or MAX_CYCLES reached) requests stop as a
side effect in the source and returns the previous state unchanged. -/
def onTick (prevState : CoreState) : CoreState :=
  if prevState.winner ≠ none ∨ prevState.cycles ≥ MAX_CYCLES then prevState
  else
    let activeProcs := prevState.processes
    let res := activeProcs.foldl (execProc activeProcs prevState.cycles)
      (prevState.memory, [])
    let nextGenProcs := res.2
    let p1Alive := nextGenProcs.any fun p => p.player == 1
    let p2Alive := nextGenProcs.any fun p => p.player == 2
    let winner : Option Nat :=
      if !p1Alive && !p2Alive then some 0
      else if !p1Alive then some 2
      else if !p2Alive then some 1
      else none
    { memory := res.1, processes := nextGenProcs,
      cycles := prevState.cycles + 1, winner := winner }

end DRQ

namespace MHC

/-! Translation of the onTick of DeepSeekMHCSimulation (part_005 lines
244-293).  JavaScript numbers are modelled as rationals and the two
Math.random() draws of one tick are explicit parameters r1 and r2
(each in [0, 1) at runtime; the translation is total in them). -/

inductive WildStatus where
  | STABLE
  | EXPLODED
  | VANISHED
deriving DecidableEq

inductive MhcStatus where
  | STABLE

/-- The MHCState interface (part_005 lines 234-242). -/
structure MHCState where
  layer : Nat
  wildSignal : ℚ
  mhcSignal : ℚ
  wildStatus : WildStatus
  mhcStatus : MhcStatus
  wildHistory : List ℚ
  mhcHistory : List ℚ

/-- The onTick of DeepSeekMHCSimulation (part_005 lines 255-291).  At layer
100 the source calls stop() as a side effect and returns prev unchanged.
The histories are pushed through the [...arr, x].slice(-50) idiom, which is
pushCapped 50. -/
def onTick (r1 r2 : ℚ) (prev : MHCState) : MHCState :=
  if prev.layer ≥ 100 then prev
  else
    let wildDrift : ℚ := 1 + (r1 * (2/5) - 9/50)
    let rawWildSignal := prev.wildSignal * wildDrift
    let statusSignal :=
      if rawWildSignal > 100 then (WildStatus.EXPLODED, (100 : ℚ))
      else if rawWildSignal < 1/100 then (WildStatus.VANISHED, (0 : ℚ))
      else (prev.wildStatus, rawWildSignal)
    let newWildStatus := statusSignal.1
    let newWildSignal := statusSignal.2
    let perturbation := r2 * (2/5) - 1/5
    let rawSignal := prev.mhcSignal + perturbation
    let newMhcSignal := rawSignal + (1 - rawSignal) * (4/5)
    { prev with
      layer := prev.layer + 1,
      wildSignal :=
        if newWildStatus = WildStatus.STABLE then newWildSignal
        else prev.wildSignal,
      mhcSignal := newMhcSignal,
      wildStatus := newWildStatus,
      wildHistory := pushCapped 50 prev.wildHistory newWildSignal,
      mhcHistory := pushCapped 50 prev.mhcHistory newMhcSignal }

end MHC

namespace Brain

/-! Translation of the onTick of BrainMimeticSimulation
(BrainMimeticSimulation.tsx lines 23-63), with the Math.random() draw an
explicit parameter r. -/

/-- The BrainState interface (BrainMimeticSimulation.tsx lines 6-12). -/
structure BrainState where
  token : Nat
  staticMemory : List String
  plasticMemory : List String
  surprise : ℚ
  loss : ℚ

/-- The token stream (lines 24-42). -/
def tokens : List String :=
  ["The", "quick", "brown", "fox", "jumps", "over", "the", "lazy", "dog",
   "Wait", "the", "dog", "is", "actually", "a", "robot", "!!!"]

/-- The onTick of BrainMimeticSimulation (lines 23-63).  On token
exhaustion the source calls stop() as a side effect and returns prev
unchanged.  Both memories are pushed through slice(-5), which is
pushCapped 5. -/
def onTick (r : ℚ) (prev : BrainState) : BrainState :=
  if prev.token ≥ tokens.length then prev
  else
    let currentToken := tokens.getD prev.token ""
    let isSurprising := currentToken ∈ (["robot", "!!!"] : List String)
    let surpriseVal : ℚ := if isSurprising then 9/10 else 1/10 + r * (1/10)
    { prev with
      token := prev.token + 1,
      staticMemory := pushCapped 5 prev.staticMemory currentToken,
      plasticMemory :=
        if isSurprising then pushCapped 5 prev.plasticMemory currentToken
        else prev.plasticMemory,
      surprise := surpriseVal,
      loss := max (1/10)
        (prev.loss * (9/10) - if isSurprising then 1/2 else 0) }

end Brain

open Scheduler

theorem elapse_of_not_armed (cfg : SimulationConfig S L)
    (h : SimulationHandle S L) (ha : h.timerArmed = false) :
    elapse cfg h = h := by
  simp [elapse, ha]

theorem elapseN_of_not_armed (cfg : SimulationConfig S L)
    (h : SimulationHandle S L) (ha : h.timerArmed = false) (n : Nat) :
    elapseN cfg n h = h := by
  unfold elapseN
  exact Function.iterate_fixed (elapse_of_not_armed cfg h ha) n

theorem teardown_not_armed (h : SimulationHandle S L) :
    (teardown h).timerArmed = false := rfl

theorem elapseN_tickIndex (cfg : SimulationConfig S L) (n : Nat) :
    ∀ h : SimulationHandle S L, h.isRunning = true → h.timerArmed = true →
      (elapseN cfg n h).tickIndex = h.tickIndex + n := by
  induction n with
  | zero => intro h _ _; rfl
  | succ n ih =>
      intro h hr ha
      unfold elapseN
      rw [Function.iterate_succ_apply]
      have hstep : elapse cfg h =
          { state := cfg.onTick h.state h.tickIndex,
            tickIndex := h.tickIndex + 1,
            logs := applyLog cfg h.logs (cfg.onTick h.state h.tickIndex),
            isRunning := true, timerArmed := true } := by
        simp [elapse, hr, ha]
      rw [hstep]
      have := ih { state := cfg.onTick h.state h.tickIndex,
                   tickIndex := h.tickIndex + 1,
                   logs := applyLog cfg h.logs (cfg.onTick h.state h.tickIndex),
                   isRunning := true, timerArmed := true } rfl rfl
      unfold elapseN at this
      rw [this]
      show h.tickIndex + 1 + n = h.tickIndex + (n + 1)
      omega

theorem stop_start_not_armed (h : SimulationHandle S L) :
    (stop (start h)).timerArmed = false := by
  rcases hh : h.isRunning <;> simp [start, stop, hh]

theorem stop_start_frame (h : SimulationHandle S L) :
    (stop (start h)).state = h.state ∧
    (stop (start h)).tickIndex = h.tickIndex := by
  rcases hh : h.isRunning <;> simp [start, stop, hh]

/-- C1: teardown, invoked on any reachable scheduler state, cancels any
pending timer: after teardown the handle is unchanged by the elapse of any
number of further tick intervals (so no tick is ever applied afterwards),
and calling teardown again is a no-op. -/
theorem teardown_cancels_pending_timer (S L : Type)
    (cfg : SimulationConfig S L) (ops : List Op) (n : Nat) :
    elapseN cfg n (teardown (run cfg ops)) = teardown (run cfg ops) ∧
    teardown (teardown (run cfg ops)) = teardown (run cfg ops) := by
  constructor
  · exact elapseN_of_not_armed cfg _ (teardown_not_armed _) n
  · rfl

/-- C2: for every (pure) onTick and every N, starting fresh and letting N
ticks elapse, then resetting, starting again and letting N ticks elapse,
reproduces the identical (state, tickIndex) trajectory at each of the N
ticks. -/
theorem reset_start_reproduces_trajectory (S L : Type)
    (cfg : SimulationConfig S L) (N : Nat) :
    traj cfg (start (reset cfg (elapseN cfg N (start (initHandle cfg))))) N =
    traj cfg (start (initHandle cfg)) N := rfl

/-- C3: tickIndex counts applied ticks.  From a freshly constructed or
freshly reset scheduler, starting and letting exactly N intervals elapse
while running yields tickIndex = N; start, stop, teardown, and an elapsed
interval during which no tick is applied (not running, or no timer pending)
leave tickIndex unchanged, while reset sets it to 0. -/
theorem tickIndex_counts_applied_ticks (S L : Type)
    (cfg : SimulationConfig S L) (N : Nat) (h : SimulationHandle S L) :
    (elapseN cfg N (start (initHandle cfg))).tickIndex = N ∧
    (elapseN cfg N (start (reset cfg h))).tickIndex = N ∧
    (start h).tickIndex = h.tickIndex ∧
    (stop h).tickIndex = h.tickIndex ∧
    (teardown h).tickIndex = h.tickIndex ∧
    (elapse cfg { h with isRunning := false }).tickIndex = h.tickIndex ∧
    (elapse cfg { h with timerArmed := false }).tickIndex = h.tickIndex ∧
    (reset cfg h).tickIndex = 0 := by
  refine ⟨?_, ?_, ?_, ?_, rfl, ?_, ?_, rfl⟩
  · rw [elapseN_tickIndex cfg N (start (initHandle cfg)) rfl rfl]
    show 0 + N = N
    omega
  · rw [elapseN_tickIndex cfg N (start (reset cfg h)) rfl rfl]
    show 0 + N = N
    omega
  · unfold Scheduler.start; split <;> rfl
  · unfold Scheduler.stop; split <;> rfl
  · simp only [elapse]; split <;> rfl
  · simp only [elapse]; rfl

/-- C4: from every reachable scheduler state, reset() yields the initial
state, tickIndex 0, an empty logs buffer, and a stopped status with no
pending timer. -/
theorem reset_restores_initial (S L : Type)
    (cfg : SimulationConfig S L) (ops : List Op) :
    (reset cfg (run cfg ops)).state = cfg.initialState ∧
    (reset cfg (run cfg ops)).tickIndex = 0 ∧
    (reset cfg (run cfg ops)).logs = [] ∧
    (reset cfg (run cfg ops)).isRunning = false ∧
    (reset cfg (run cfg ops)).timerArmed = false :=
  ⟨rfl, rfl, rfl, rfl, rfl⟩

/-- C5: stop() called synchronously after start(), before the first interval
elapses, results in zero ticks: state and tickIndex keep their values from
before start, however many intervals elapse afterwards.  Moreover a timer
callback that fires while the running flag is cleared (a queued callback
after a stop request) applies no tick: state and tickIndex are unchanged. -/
theorem no_tick_after_stop (S L : Type)
    (cfg : SimulationConfig S L) (h : SimulationHandle S L) (n : Nat) :
    (elapseN cfg n (stop (start h))).state = h.state ∧
    (elapseN cfg n (stop (start h))).tickIndex = h.tickIndex ∧
    (elapse cfg { h with isRunning := false }).state = h.state ∧
    (elapse cfg { h with isRunning := false }).tickIndex = h.tickIndex := by
  rw [elapseN_of_not_armed cfg _ (stop_start_not_armed h) n]
  refine ⟨(stop_start_frame h).1, (stop_start_frame h).2, ?_, ?_⟩ <;>
    · simp only [elapse]; split <;> rfl

/-- C6: stop() is idempotent and frame-preserving: stopping twice equals
stopping once, stop never modifies state or tickIndex, and stop on a
non-running scheduler is a no-op. -/
theorem stop_idempotent_frame (S L : Type) (h : SimulationHandle S L) :
    stop (stop h) = stop h ∧
    (stop h).state = h.state ∧
    (stop h).tickIndex = h.tickIndex ∧
    stop { h with isRunning := false } = { h with isRunning := false } := by
  rcases hh : h.isRunning <;> simp [stop, hh]

theorem pushCapped_drop (cap : Nat) (l : List α) (e : α) :
    pushCapped cap (List.drop (l.length - cap) l) e
      = List.drop (l.length + 1 - cap) (l ++ [e]) := by
  have hd : l.length - cap ≤ l.length := Nat.sub_le _ _
  unfold pushCapped
  rw [← List.drop_append_of_le_length hd, List.drop_drop]
  congr 1
  simp only [List.length_drop]
  omega

theorem foldl_pushCapped (cap : Nat) (es : List α) :
    ∀ pref : List α,
      List.foldl (pushCapped cap) (List.drop (pref.length - cap) pref) es
        = List.drop ((pref ++ es).length - cap) (pref ++ es) := by
  induction es with
  | nil => intro pref; simp
  | cons e es ih =>
      intro pref
      rw [List.foldl_cons, pushCapped_drop]
      have h1 := ih (pref ++ [e])
      simp only [List.append_assoc, List.singleton_append, List.length_append,
        List.length_singleton, List.length_cons] at h1 ⊢
      exact h1

/-- C7: the log buffer is a bounded FIFO.  Appending any sequence of more
than cap entries (each append evicting the oldest once capacity cap is
exceeded) leaves exactly the cap most recently appended entries, in arrival
order. -/
theorem logs_bounded_fifo (cap : Nat) (entries : List α)
    (hlong : cap < entries.length) :
    List.foldl (pushCapped cap) [] entries
        = List.drop (entries.length - cap) entries ∧
    (List.foldl (pushCapped cap) [] entries).length = cap := by
  have h0 := foldl_pushCapped cap entries []
  simp only [List.nil_append, List.length_nil, List.drop_nil, Nat.zero_sub]
    at h0
  refine ⟨h0, ?_⟩
  rw [h0]
  simp only [List.length_drop]
  omega

/-- Witness for C7 at cap = 2, entries = [10, 11, 12]. -/
theorem logs_bounded_fifo_witness :
    2 < ([10, 11, 12] : List Nat).length ∧
    (List.foldl (pushCapped 2) [] [10, 11, 12]
        = List.drop (([10, 11, 12] : List Nat).length - 2) [10, 11, 12] ∧
     (List.foldl (pushCapped 2) ([] : List Nat) [10, 11, 12]).length = 2) :=
  ⟨by decide, logs_bounded_fifo 2 [10, 11, 12] (by decide)⟩

/-- C9: constructing a scheduler with an invalid configuration, a
non-positive tickRate or a missing onTick, fails fast at construction: an
error is reported and no scheduler instance is produced. -/
theorem invalid_config_fails_fast (S L : Type) (cfg : RawConfig S L)
    (hbad : cfg.tickRate ≤ 0 ∨ cfg.onTick = none) :
    constructOk (construct cfg) = false := by
  by_cases ht : cfg.tickRate ≤ 0
  · simp [construct, ht, constructOk]
  · rcases hbad with hb | hb
    · exact absurd hb ht
    · simp [construct, ht, hb, constructOk]

/-- Witness for C9: tickRate 0 and onTick missing are both rejected. -/
theorem invalid_config_fails_fast_witness :
    ((0 : Int) ≤ 0 ∨ (none : Option (Unit → Nat → Unit)) = none) ∧
    constructOk (construct (⟨(), none, 0, none⟩ : RawConfig Unit Unit))
      = false :=
  ⟨Or.inl le_rfl,
   invalid_config_fails_fast Unit Unit ⟨(), none, 0, none⟩ (Or.inl le_rfl)⟩

/-- C8: the three onTick functions of the repository that follow the
terminal-state convention (DeepSeekMHCSimulation at layer 100,
DigitalRedQueenSimulation once a winner is decided or MAX_CYCLES is
reached, BrainMimeticSimulation on token exhaustion) return any state
satisfying their terminal condition unchanged: terminal states are
fixpoints, so further ticks never change the state. -/
theorem terminal_states_are_fixpoints
    (r1 r2 r : ℚ) (m : MHC.MHCState) (hm : m.layer ≥ 100)
    (c : DRQ.CoreState) (hc : c.winner ≠ none ∨ c.cycles ≥ DRQ.MAX_CYCLES)
    (b : Brain.BrainState) (hb : b.token ≥ Brain.tokens.length) :
    MHC.onTick r1 r2 m = m ∧ DRQ.onTick c = c ∧ Brain.onTick r b = b := by
  refine ⟨?_, ?_, ?_⟩
  · unfold MHC.onTick; rw [if_pos hm]
  · unfold DRQ.onTick; rw [if_pos hc]
  · unfold Brain.onTick; rw [if_pos hb]

/-- Witness for C8 at concrete terminal states of all three simulations. -/
theorem terminal_states_are_fixpoints_witness :
    ((⟨100, 1, 1, .STABLE, .STABLE, [1], [1]⟩ : MHC.MHCState).layer ≥ 100 ∧
     ((⟨[], [], 0, some 1⟩ : DRQ.CoreState).winner ≠ none ∨
      (⟨[], [], 0, some 1⟩ : DRQ.CoreState).cycles ≥ DRQ.MAX_CYCLES) ∧
     (⟨17, [], [], 0, 0⟩ : Brain.BrainState).token ≥ Brain.tokens.length) ∧
    (MHC.onTick 0 0 ⟨100, 1, 1, .STABLE, .STABLE, [1], [1]⟩
        = ⟨100, 1, 1, .STABLE, .STABLE, [1], [1]⟩ ∧
     DRQ.onTick ⟨[], [], 0, some 1⟩ = ⟨[], [], 0, some 1⟩ ∧
     Brain.onTick 0 ⟨17, [], [], 0, 0⟩ = ⟨17, [], [], 0, 0⟩) :=
  ⟨⟨by decide, by decide, by decide⟩,
   terminal_states_are_fixpoints 0 0 0
     ⟨100, 1, 1, .STABLE, .STABLE, [1], [1]⟩ (by decide)
     ⟨[], [], 0, some 1⟩ (by decide)
     ⟨17, [], [], 0, 0⟩ (by decide)⟩

theorem countPlayer_cons (pl : Nat) (p : DRQ.Process)
    (ps : List DRQ.Process) :
    DRQ.countPlayer pl (p :: ps)
      = (if p.player == pl then 1 else 0) + DRQ.countPlayer pl ps := by
  rcases hp : p.player == pl
  · simp [DRQ.countPlayer, List.filter_cons, hp]
  · simp [DRQ.countPlayer, List.filter_cons, hp]
    omega

theorem countPlayer_append (pl : Nat) (xs ys : List DRQ.Process) :
    DRQ.countPlayer pl (xs ++ ys)
      = DRQ.countPlayer pl xs + DRQ.countPlayer pl ys := by
  unfold DRQ.countPlayer
  rw [List.filter_append, List.length_append]

theorem countPlayer_singleton (pl : Nat) (p : DRQ.Process) :
    DRQ.countPlayer pl [p] = if p.player == pl then 1 else 0 := by
  rcases hp : p.player == pl <;> simp [DRQ.countPlayer, hp]


theorem countPlayer_append_one (pl : Nat) (g : List DRQ.Process)
    (q : DRQ.Process) :
    DRQ.countPlayer pl (g ++ [q])
      = DRQ.countPlayer pl g + (if q.player = pl then 1 else 0) := by
  rw [countPlayer_append, countPlayer_singleton]
  by_cases h : q.player = pl <;> simp [h]

theorem execProc_count_le (active : List DRQ.Process) (cycles : Nat)
    (mem : List DRQ.Instruction) (g : List DRQ.Process)
    (proc : DRQ.Process) (pl : Nat) :
    DRQ.countPlayer pl (DRQ.execProc active cycles (mem, g) proc).2 ≤
      DRQ.countPlayer pl g +
        (if proc.player = pl then
          (if DRQ.countPlayer pl active + DRQ.countPlayer pl g <
              DRQ.MAX_PROCESSES_PER_PLAYER then 2 else 1)
         else 0) := by
  unfold DRQ.execProc
  dsimp only
  split
  · -- DAT: the process crashes, no survivor is pushed
    dsimp only
    by_cases hpl : proc.player = pl
    · rw [if_pos hpl]
      split <;> omega
    · rw [if_neg hpl]
      omega
  · -- MOV: only the surviving process is pushed
    dsimp only
    rw [countPlayer_append_one]
    dsimp only
    by_cases hpl : proc.player = pl
    · rw [if_pos hpl, if_pos hpl]
      split <;> omega
    · rw [if_neg hpl, if_neg hpl]
  · -- ADD: only the surviving process is pushed
    dsimp only
    rw [countPlayer_append_one]
    dsimp only
    by_cases hpl : proc.player = pl
    · rw [if_pos hpl, if_pos hpl]
      split <;> omega
    · rw [if_neg hpl, if_neg hpl]
  · -- JMP: only the surviving process is pushed
    dsimp only
    rw [countPlayer_append_one]
    dsimp only
    by_cases hpl : proc.player = pl
    · rw [if_pos hpl, if_pos hpl]
      split <;> omega
    · rw [if_neg hpl, if_neg hpl]
  · -- SPL: a guarded spawn, then the surviving process
    dsimp only
    rw [countPlayer_append_one]
    dsimp only
    by_cases hpl : proc.player = pl
    · rw [hpl]
      rw [if_pos rfl, if_pos rfl]
      by_cases hg : DRQ.countPlayer pl active + DRQ.countPlayer pl g <
          DRQ.MAX_PROCESSES_PER_PLAYER
      · rw [if_pos hg, if_pos hg, countPlayer_append_one]
        dsimp only
        rw [if_pos rfl]
      · rw [if_neg hg, if_neg hg]
    · rw [if_neg hpl, if_neg hpl]
      split
      · rw [countPlayer_append_one]
        dsimp only
        rw [if_neg hpl]
      · omega

theorem fold_count_invariant (active : List DRQ.Process) (cycles : Nat)
    (pl : Nat) :
    ∀ (rest : List DRQ.Process) (mem : List DRQ.Instruction)
      (g : List DRQ.Process),
      DRQ.countPlayer pl g + DRQ.countPlayer pl rest ≤
        DRQ.MAX_PROCESSES_PER_PLAYER →
      DRQ.countPlayer pl rest ≤ DRQ.countPlayer pl active →
      DRQ.countPlayer pl
          (rest.foldl (DRQ.execProc active cycles) (mem, g)).2 ≤
        DRQ.MAX_PROCESSES_PER_PLAYER := by
  intro rest
  induction rest with
  | nil =>
      intro mem g h1 _
      simpa [DRQ.countPlayer] using h1
  | cons proc rest ih =>
      intro mem g h1 h2
      rw [List.foldl_cons]
      have hcons := countPlayer_cons pl proc rest
      have hbound := execProc_count_le active cycles mem g proc pl
      have h2' : DRQ.countPlayer pl rest ≤ DRQ.countPlayer pl active := by
        rcases hp : proc.player == pl <;> rw [hp] at hcons <;> omega
      have h1' :
          DRQ.countPlayer pl (DRQ.execProc active cycles (mem, g) proc).2 +
            DRQ.countPlayer pl rest ≤ DRQ.MAX_PROCESSES_PER_PLAYER := by
        by_cases hpl : proc.player = pl
        · rw [if_pos hpl] at hbound
          have hp : (proc.player == pl) = true := beq_iff_eq.mpr hpl
          simp only [hp, if_true] at hcons
          by_cases hg : DRQ.countPlayer pl active + DRQ.countPlayer pl g <
              DRQ.MAX_PROCESSES_PER_PLAYER
          · rw [if_pos hg] at hbound
            omega
          · rw [if_neg hg] at hbound
            omega
        · rw [if_neg hpl] at hbound
          have hp : (proc.player == pl) = false :=
            beq_eq_false_iff_ne.mpr hpl
          simp only [hp, if_false] at hcons
          omega
      exact ih (DRQ.execProc active cycles (mem, g) proc).1
        (DRQ.execProc active cycles (mem, g) proc).2 h1' h2'

/-- C10: each tick of DigitalRedQueenSimulation preserves the per-player
process bound: if player pl owns at most MAX_PROCESSES_PER_PLAYER (32)
processes in the previous state, then the state returned by onTick also has
at most 32 processes of player pl, because a SPL instruction forks a new
process only when the forking player's combined count of active and
already-produced processes is below the bound. -/
theorem drq_process_bound_preserved (st : DRQ.CoreState) (pl : Nat)
    (hst : DRQ.countPlayer pl st.processes ≤ DRQ.MAX_PROCESSES_PER_PLAYER) :
    DRQ.countPlayer pl (DRQ.onTick st).processes ≤
      DRQ.MAX_PROCESSES_PER_PLAYER := by
  unfold DRQ.onTick
  split
  · exact hst
  · dsimp only
    exact fold_count_invariant st.processes st.cycles pl st.processes
      st.memory []
      (by simpa [DRQ.countPlayer] using hst) (le_refl _)

/-- Witness for C10 at the loaded two-process initial configuration. -/
theorem drq_process_bound_preserved_witness :
    DRQ.countPlayer 1
        (⟨[], [⟨0, 1, "p1_init"⟩, ⟨64, 2, "p2_init"⟩], 0, none⟩ :
          DRQ.CoreState).processes ≤ DRQ.MAX_PROCESSES_PER_PLAYER ∧
    DRQ.countPlayer 1
        (DRQ.onTick
          ⟨[], [⟨0, 1, "p1_init"⟩, ⟨64, 2, "p2_init"⟩], 0, none⟩).processes ≤
      DRQ.MAX_PROCESSES_PER_PLAYER :=
  ⟨by decide,
   drq_process_bound_preserved
     ⟨[], [⟨0, 1, "p1_init"⟩, ⟨64, 2, "p2_init"⟩], 0, none⟩ 1 (by decide)⟩
